import Mathlib

/-!
Shallow embedding of the clanimtk animation library (modules `cli.py`,
`util.py`, `core.py`/`animation.py`, `decorator.py`).

Strings are modelled as lists of characters (`Str`).  A Python generator
that is pulled sequentially is modelled by the mathematical sequence of
its yields, `Nat → Option Str`, where `none` at position `n` means the
generator raises `StopIteration` on its `n`-th pull; stateful iterator
objects (with a cursor) are modelled by `GenSt`.  Exceptions are
modelled with `Except PyErr`.
-/

namespace Clanimtk

/-- Python strings as lists of characters. -/
abbrev Str := List Char

/-- `cli.BACKSPACE = '\x08'`. -/
def BACKSPACE : Char := '\x08'

/-- `cli.BACKLINE = '\033[F'`. -/
def BACKLINE : Str := ['\x1b', '[', 'F']

/-- Python exceptions relevant to this development.  `malformedFrameError`
and `emptySequenceError` are the error classes the specification posits;
they are included so that statements can distinguish them from the
exceptions the code actually raises. -/
inductive PyErr where
  | stopIteration : PyErr
  | typeError : PyErr
  | valueError : PyErr
  | malformedFrameError : PyErr
  | emptySequenceError : PyErr
  | userError : Nat → PyErr
deriving DecidableEq, Repr

/-- Python's `str.split('\n')`: split a string into its lines.  Always
returns at least one (possibly empty) piece, as in Python. -/
def splitLines : Str → List Str
  | [] => [[]]
  | c :: rest =>
    match splitLines rest with
    | [] => [[]]
    | l :: ls => if c = '\n' then [] :: l :: ls else (c :: l) :: ls

/-- Python's `sep.join(pieces)`. -/
def joinSep (sep : Str) : List Str → Str
  | [] => []
  | [x] => x
  | x :: y :: rest => x ++ sep ++ joinSep sep (y :: rest)

/-- `splitLines` never returns the empty list. -/
theorem splitLines_ne_nil (s : Str) : splitLines s ≠ [] := by
  cases s with
  | nil => simp [splitLines]
  | cons c rest =>
    simp only [splitLines]
    cases h : splitLines rest with
    | nil => simp
    | cons l ls =>
      by_cases hc : c = '\n' <;> simp [hc]

/-- A string without newline characters is a single line. -/
theorem splitLines_no_newline (s : Str) (h : '\n' ∉ s) : splitLines s = [s] := by
  induction s with
  | nil => rfl
  | cons c rest ih =>
    simp only [List.mem_cons, not_or] at h
    have hc : c ≠ '\n' := fun hc => h.1 hc.symm
    rw [splitLines, ih h.2]
    simp [hc]

/-- The sequence of yields of a Python generator: `none` at `n` means the
`n`-th pull raises `StopIteration`. -/
abbrev GenSeq := Nat → Option Str

/-- The sequence of yields of the iterator over a Python list. -/
def ofList (xs : List Str) : GenSeq := fun n => xs.get? n

/-- `itertools.cycle` applied to an iterator with yield sequence `g`:
it pulls from `g`, caching every yielded value, until `g` is exhausted
(first `none`, at index `k`); from then on it repeats the cached values
`g 0, …, g (k-1)` forever.  If `g` yields nothing at all, the cycle is
immediately exhausted. -/
def cycleSeq (g : GenSeq) : GenSeq := fun n =>
  match (List.range (n + 1)).find? (fun m => (g m).isNone) with
  | none => g n
  | some k => if k = 0 then none else g (n % k)

/-- `itertools.cycle` applied to a Python list. -/
def cycleList (xs : List Str) : GenSeq := cycleSeq (ofList xs)

/-- `util.BACKSPACE_GEN = lambda size: itertools.cycle([BACKSPACE * size])`. -/
def BACKSPACE_GEN (size : Nat) : GenSeq :=
  cycleList [List.replicate size BACKSPACE]

/-- `util.BACKLINE_GEN = lambda lines: itertools.cycle(['\033[F' * (lines - 1)])`. -/
def BACKLINE_GEN (lines : Nat) : GenSeq :=
  cycleList [(List.replicate (lines - 1) BACKLINE).flatten]

/-- Whether every generator in `gens` yields a value on its `m`-th pull. -/
def aliveAt (gens : List GenSeq) (m : Nat) : Bool :=
  gens.all (fun g => (g m).isSome)

/-- Yields of `util.concatechain(*generators, separator=sep)`: at each step
it pulls one value from each generator (in list order) and yields them
joined with `sep`; it stops for good as soon as any generator is
exhausted. -/
def concatechain (gens : List GenSeq) (sep : Str) : GenSeq := fun n =>
  if (List.range (n + 1)).all (aliveAt gens) then
    some (joinSep sep (gens.map (fun g => (g n).getD [])))
  else
    none

/-- A cycle of an iterator that never stops is transparent. -/
theorem cycleSeq_total (g : GenSeq) (h : ∀ n, (g n).isSome) :
    ∀ n, cycleSeq g n = g n := by
  intro n
  unfold cycleSeq
  have : (List.range (n + 1)).find? (fun m => (g m).isNone) = none := by
    rw [List.find?_eq_none]
    intro m _
    simp [Option.isNone, Option.isSome] at *
    cases hm : g m with
    | none => have := h m; simp [hm] at this
    | some v => simp
  rw [this]

theorem find?_append_eq (l1 l2 : List α) (p : α → Bool) :
    (l1 ++ l2).find? p =
      match l1.find? p with
      | some x => some x
      | none => l2.find? p := by
  induction l1 with
  | nil => simp
  | cons a l ih =>
    by_cases h : p a <;> simp [List.find?, h, ih]

theorem find?_range_least (p : Nat → Bool) (n k : Nat) (hk : k ≤ n)
    (hpk : p k = true) (hmin : ∀ m, m < k → p m = false) :
    (List.range (n + 1)).find? p = some k := by
  induction n with
  | zero =>
    interval_cases k
    simp [List.find?, hpk]
  | succ n ih =>
    rcases Nat.lt_or_ge n k with hlt | hge
    · have hkn : k = n + 1 := le_antisymm hk hlt
      subst hkn
      rw [List.range_succ, find?_append_eq]
      have hnone : (List.range (n + 1)).find? p = none := by
        rw [List.find?_eq_none]
        intro m hm
        simp only [List.mem_range] at hm
        simp [hmin m hm]
      rw [hnone]
      simp [List.find?, hpk]
    · rw [List.range_succ, find?_append_eq, ih hge]

/-- `itertools.cycle` of the iterator over a finite nonempty list yields
`xs[n % len(xs)]` on its `n`-th pull, for every `n`. -/
theorem cycleList_get (xs : List Str) (hxs : xs ≠ []) (n : Nat) :
    cycleList xs n = xs.get? (n % xs.length) := by
  have hL : 0 < xs.length := List.length_pos.mpr hxs
  unfold cycleList cycleSeq
  rcases Nat.lt_or_ge n xs.length with hlt | hge
  · have hnone : (List.range (n + 1)).find? (fun m => (ofList xs m).isNone) = none := by
      rw [List.find?_eq_none]
      intro m hm
      simp only [List.mem_range] at hm
      have hmlt : m < xs.length := lt_of_le_of_lt (Nat.lt_succ_iff.mp hm) hlt
      cases hx : ofList xs m with
      | none => exact absurd (List.get?_eq_none.mp hx) (Nat.not_le.mpr hmlt)
      | some v => simp [hx]
    rw [hnone, Nat.mod_eq_of_lt hlt]
    rfl
  · have hsome : (List.range (n + 1)).find? (fun m => (ofList xs m).isNone) = some xs.length := by
      apply find?_range_least _ _ _ hge
      · simp [ofList, List.get?_eq_none.mpr (le_refl xs.length)]
      · intro m hm
        simp [ofList, List.getElem?_eq_getElem hm]
    rw [hsome]
    have hL0 : xs.length ≠ 0 := Nat.pos_iff_ne_zero.mp hL
    simp only [hL0, if_false]
    rfl

/-- `core.Animation` (identical to `animation._Animation`): a stateful
wrapper around a frame-producing function.  `frame_function` is modelled
by the yield sequence of one (fresh) invocation — the code requires that
every invocation produce the same, independent sequence.
`current_generator` is the composed generator built by `reset`, with
`pos` the iterator cursor into it; `current_frame` is the last value
produced by `__next__` (the empty string at construction). -/
structure Animation where
  frame_function : GenSeq
  current_generator : GenSeq
  back_up_generator : GenSeq
  pos : Nat
  current_frame : Str

/-- `Animation.reset`: rebuild the composed generator as
`itertools.cycle(util.concatechain(frame_function(*args), back_up_generator))`
and start pulling it from the beginning. -/
def Animation.reset (a : Animation) : Animation :=
  { a with
    current_generator := cycleSeq (concatechain [a.frame_function, a.back_up_generator] [])
    pos := 0 }

/-- `Animation.get_erase_frame`: split the current frame into lines,
measure width (first line) and height (line count), and produce a blank
block of the same measurements followed by the cursor-backup characters. -/
def Animation.get_erase_frame (a : Animation) : Str :=
  let lines := splitLines a.current_frame
  let width := (lines.headD []).length
  let height := lines.length
  let line := List.replicate width ' '
  if height = 1 then
    line ++ List.replicate width BACKSPACE
  else
    joinSep ['\n'] (List.replicate height line) ++
      (List.replicate (height - 1) BACKLINE).flatten

/-- `Animation.__next__`: pull the next composed frame from the current
generator, record it as the current frame and return it.  `none` models
the `StopIteration` that `next` would raise on an exhausted generator. -/
def Animation.next (a : Animation) : Option (Str × Animation) :=
  match a.current_generator a.pos with
  | none => none
  | some f => some (f, { a with current_frame := f, pos := a.pos + 1 })

/-- `core._get_back_up_generator`: pull the first frame of a fresh
invocation of the frame function (raising `StopIteration` if it yields
nothing), measure its width and height, and return `BACKSPACE_GEN width`
for single-line frames or `BACKLINE_GEN height` otherwise. -/
def get_back_up_generator (ff : GenSeq) : Except PyErr GenSeq :=
  match ff 0 with
  | none => .error .stopIteration
  | some f0 =>
    let lines := splitLines f0
    let width := (lines.headD []).length
    let height := lines.length
    if height = 1 then .ok (BACKSPACE_GEN width)
    else .ok (BACKLINE_GEN height)

/-- `Animation.__call__` (instantiation of an animation from a frame
function): derive the backup generator from a fresh invocation, `reset`,
and return a new instance sharing the built generator, with an empty
current frame, as the constructor sets. -/
def animationCall (ff : GenSeq) : Except PyErr Animation :=
  match get_back_up_generator ff with
  | .error e => .error e
  | .ok bu =>
    .ok (Animation.reset
      { frame_function := ff
        current_generator := fun _ => none
        back_up_generator := bu
        pos := 0
        current_frame := [] })

/-- The five width-4, height-1 frames of the specification's scenario:
`"#".ljust(4), "##".ljust(4), …` cycling through 5 strings. -/
def scenarioStrings : List Str :=
  [['#', ' ', ' ', ' '], ['#', '#', ' ', ' '], ['#', '#', '#', ' '],
   ['#', '#', '#', '#'], [' ', ' ', ' ', ' ']]

/-- The scenario frame function: an endless cycle over `scenarioStrings`. -/
def scenarioFF : GenSeq := cycleList scenarioStrings

/-- A placeholder animation used only as the default of `Option.getD`. -/
def dummyAnim : Animation :=
  { frame_function := fun _ => none
    current_generator := fun _ => none
    back_up_generator := fun _ => none
    pos := 0
    current_frame := [] }

/-- The animation instantiated from the scenario frame function. -/
def scenarioAnim : Animation := (animationCall scenarioFF).toOption.getD dummyAnim

/-- The first composed frame the scenario animation produces:
`"#   "` followed by four backspaces. -/
def scenarioFrame1 : Str :=
  ['#', ' ', ' ', ' ', '\x08', '\x08', '\x08', '\x08']

/-- The scenario animation after its first `__next__`. -/
def scenarioAnim1 : Animation :=
  { scenarioAnim with current_frame := scenarioFrame1, pos := 1 }

/-- C1 (counterexample): in the specification's scenario — a frame
function cycling five strings of width 4 and height 1 — `get_erase_frame`
after the first `next()` returns eight spaces followed by eight
backspaces, not `"    " + "\x08\x08\x08\x08"`: `__next__` records the
composed frame *including* its four-backspace suffix, so the measured
width is 8. -/
theorem claim1_counterexample :
    ((animationCall scenarioFF).toOption.bind Animation.next).map
        (fun p => p.2.get_erase_frame)
      = some (List.replicate 8 ' ' ++ List.replicate 8 BACKSPACE) ∧
    some (List.replicate 8 ' ' ++ List.replicate 8 BACKSPACE) ≠
      some ((List.replicate 4 ' ' : Str) ++ List.replicate 4 BACKSPACE) := by
  constructor
  · decide
  · decide

/-- C1 (amended): after any successful `next()` that produced the
composed string `f` (frame plus cursor-backup suffix), `get_erase_frame()`
returns an all-space block whose width and height are measured from `f`
itself — the full recorded composed frame, backup characters included —
followed by the backup rule for that shape; in particular for a
single-line `f` it is `len(f)` spaces and `len(f)` backspaces, which in
the specification's scenario is eight of each, not four. -/
theorem claim1_amended (a a' : Animation) (f : Str)
    (h : a.next = some (f, a')) :
    (a'.get_erase_frame =
      joinSep ['\n'] (List.replicate (splitLines f).length
        (List.replicate ((splitLines f).headD []).length ' ')) ++
      (if (splitLines f).length = 1
        then List.replicate ((splitLines f).headD []).length BACKSPACE
        else (List.replicate ((splitLines f).length - 1) BACKLINE).flatten)) ∧
    ('\n' ∉ f → a'.get_erase_frame =
      List.replicate f.length ' ' ++ List.replicate f.length BACKSPACE) := by
  have hcf : a'.current_frame = f := by
    unfold Animation.next at h
    cases hg : a.current_generator a.pos with
    | none => rw [hg] at h; cases h
    | some v =>
      rw [hg] at h
      cases h
      rfl
  constructor
  · unfold Animation.get_erase_frame
    rw [hcf]
    by_cases h1 : (splitLines f).length = 1
    · simp [h1, joinSep]
    · simp [h1]
  · intro hnl
    unfold Animation.get_erase_frame
    rw [hcf, splitLines_no_newline f hnl]
    simp

/-- C1 (witness): the amended statement instantiated on the scenario
animation right after its first `next()`. -/
theorem claim1_amended_witness :
    scenarioAnim.next = some (scenarioFrame1, scenarioAnim1) ∧
    scenarioAnim1.get_erase_frame =
      List.replicate scenarioFrame1.length ' ' ++
        List.replicate scenarioFrame1.length BACKSPACE :=
  ⟨rfl,
   (claim1_amended scenarioAnim scenarioAnim1 scenarioFrame1 rfl).2 (by decide)⟩

/-- C10: an animation instance freshly produced by instantiation has the
empty string as its recorded current frame, so `get_erase_frame()`
succeeds before any `next()` and returns the empty string (width 0,
height 1, zero backspaces). -/
theorem claim10_fresh_erase_frame (ff : GenSeq) (a : Animation)
    (h : animationCall ff = .ok a) : a.get_erase_frame = [] := by
  unfold animationCall at h
  cases hbu : get_back_up_generator ff with
  | error e => rw [hbu] at h; cases h
  | ok bu =>
    rw [hbu] at h
    cases h
    rfl

/-- C10 (witness): the scenario animation, freshly instantiated, erases
to the empty string. -/
theorem claim10_fresh_erase_frame_witness :
    animationCall scenarioFF = .ok scenarioAnim ∧
    scenarioAnim.get_erase_frame = [] :=
  ⟨rfl, claim10_fresh_erase_frame scenarioFF scenarioAnim rfl⟩

/-- A frame-producing function that yields no frames at all. -/
def emptyFF : GenSeq := fun _ => none

/-- `next(iterator)`: yield the next value or raise `StopIteration`. -/
def pullResult (g : GenSeq) (n : Nat) : Except PyErr Str :=
  match g n with
  | some v => .ok v
  | none => .error .stopIteration

/-- C5 (counterexample): instantiating an animation from a frame function
that produces no frames fails with a bare `StopIteration` (escaping from
`next(frame_function(...))` in `_get_back_up_generator`), which is not a
`MalformedFrameError`; no error class of that name exists in the code. -/
theorem claim5_counterexample :
    animationCall emptyFF = .error .stopIteration ∧
    (Except.error .stopIteration : Except PyErr Animation) ≠
      .error .malformedFrameError :=
  ⟨rfl, by intro h; cases h⟩

/-- C5 (amended): instantiating an animation from a frame-producing
function whose invocation produces no frames does fail, but the raised
exception is Python's `StopIteration` from the first-frame measurement,
not a dedicated `MalformedFrameError`. -/
theorem claim5_amended (ff : GenSeq) (h : ff 0 = none) :
    animationCall ff = .error .stopIteration := by
  unfold animationCall get_back_up_generator
  rw [h]

/-- C5 (witness): the amended statement instantiated on the empty frame
function. -/
theorem claim5_amended_witness :
    emptyFF 0 = none ∧ animationCall emptyFF = .error .stopIteration :=
  ⟨rfl, claim5_amended emptyFF rfl⟩

/-- C6 (counterexample): `itertools.cycle` applied to an empty sequence
does not raise an `EmptySequenceError`; its first pull raises plain
`StopIteration` (immediate exhaustion). -/
theorem claim6_counterexample :
    pullResult (cycleList []) 0 = .error .stopIteration ∧
    (Except.error .stopIteration : Except PyErr Str) ≠
      .error .emptySequenceError :=
  ⟨rfl, by intro h; cases h⟩

/-- C6 (amended): `cycle` over a finite nonempty sequence is lazy and
infinite, yielding `xs[n % len(xs)]` on every pull `n`; over the empty
sequence it raises `StopIteration` on every pull instead of a dedicated
`EmptySequenceError` (which does not exist in the code). -/
theorem claim6_amended (xs : List Str) (n : Nat) :
    (xs ≠ [] → cycleList xs n = xs.get? (n % xs.length)) ∧
    (xs = [] → pullResult (cycleList xs) n = .error .stopIteration) := by
  constructor
  · intro hxs
    exact cycleList_get xs hxs n
  · intro hxs
    subst hxs
    have h0 : cycleList [] n = none := by
      unfold cycleList cycleSeq
      have : (List.range (n + 1)).find? (fun m => (ofList ([] : List Str) m).isNone)
          = some 0 := by
        rw [List.range_succ_eq_map]
        simp [List.find?, ofList]
      rw [this]
      simp
    rw [pullResult, h0]

/-- C6 (witness): the amended statement at a concrete nonempty sequence
(pull 7 of a 5-element cycle yields element 2) and at the empty
sequence (pull 3 raises `StopIteration`). -/
theorem claim6_amended_witness :
    cycleList scenarioStrings 7 = scenarioStrings.get? (7 % scenarioStrings.length) ∧
    pullResult (cycleList []) 3 = .error .stopIteration :=
  ⟨(claim6_amended scenarioStrings 7).1 (by decide),
   (claim6_amended [] 3).2 rfl⟩

/-- A Python generator together with its `StopIteration` value (the value
a `return` statement inside the generator attaches to the exception). -/
structure PyGen (ρ : Type) where
  yields : GenSeq
  retval : ρ

/-- Outcome of one pull on `concatechain`'s own generator: either a
yielded joined string, or the generator has returned, carrying the
propagated `StopIteration` value. -/
inductive CCOut (ρ : Type) where
  | yieldv : Str → CCOut ρ
  | stop : Option ρ → CCOut ρ
deriving DecidableEq

/-- The first step index `≤ n` at which some generator is exhausted. -/
def firstDead (gens : List (PyGen ρ)) (n : Nat) : Option Nat :=
  (List.range (n + 1)).find? (fun m => !(aliveAt (gens.map PyGen.yields) m))

/-- `util.concatechain` observed with its return value: at each step pull
one value from every generator in list order and yield them joined with
`sep`; at the first step where some generator raises `StopIteration`,
return that (first such) generator's `StopIteration` value. -/
def concatechainRun (gens : List (PyGen ρ)) (sep : Str) (n : Nat) : CCOut ρ :=
  match firstDead gens n with
  | none => .yieldv (joinSep sep (gens.map (fun g => (g.yields n).getD [])))
  | some m => .stop ((gens.find? (fun g => ((g.yields m).isNone : Bool))).map PyGen.retval)

theorem find?_get_of_first (l : List α) (p : α → Bool) (i : Nat) (hi : i < l.length)
    (hp : p (l.get ⟨i, hi⟩) = true)
    (hmin : ∀ j (hj : j < l.length), j < i → p (l.get ⟨j, hj⟩) = false) :
    l.find? p = some (l.get ⟨i, hi⟩) := by
  induction l generalizing i with
  | nil => exact absurd hi (Nat.not_lt_zero i)
  | cons a l ih =>
    cases i with
    | zero =>
      simp only [List.get] at hp
      simp [List.find?, hp]
    | succ i =>
      have ha : p a = false := by
        have := hmin 0 (Nat.succ_pos _) (Nat.succ_pos _)
        simpa using this
      simp only [List.find?, ha]
      have hi' : i < l.length := Nat.lt_of_succ_lt_succ hi
      have := ih i hi' (by simpa using hp)
        (fun j hj hji => by
          have := hmin (j + 1) (Nat.succ_lt_succ hj) (Nat.succ_lt_succ hji)
          simpa using this)
      simpa using this

/-- C7: `concatechain(g1..gn, separator=s)` yields, on each step where all
generators still yield, the pulled values joined with `s`; at the first
step where some generator is exhausted it stops, and the produced
(`StopIteration`) result is the return value of the first exhausted
generator in argument order. -/
theorem claim7_concatechain (gens : List (PyGen ρ)) (sep : Str) (n : Nat) :
    ((∀ m, m < n + 1 → aliveAt (gens.map PyGen.yields) m = true) →
      concatechainRun gens sep n =
        .yieldv (joinSep sep (gens.map (fun g => (g.yields n).getD [])))) ∧
    (∀ i (hi : i < gens.length),
      (∀ m, m < n → aliveAt (gens.map PyGen.yields) m = true) →
      (∀ j (hj : j < gens.length), j < i → (((gens.get ⟨j, hj⟩).yields n).isSome = true)) →
      ((gens.get ⟨i, hi⟩).yields n = none) →
      concatechainRun gens sep n = .stop (some ((gens.get ⟨i, hi⟩).retval))) := by
  constructor
  · intro halive
    unfold concatechainRun firstDead
    have hnone : (List.range (n + 1)).find?
        (fun m => !(aliveAt (gens.map PyGen.yields) m)) = none := by
      rw [List.find?_eq_none]
      intro m hm
      simp only [List.mem_range] at hm
      simp [halive m hm]
    rw [hnone]
  · intro i hi hprev hfirst hdead
    unfold concatechainRun firstDead
    have hdeadn : aliveAt (gens.map PyGen.yields) n = false := by
      unfold aliveAt
      rw [List.all_eq_false]
      refine ⟨(gens.get ⟨i, hi⟩).yields,
        List.mem_map_of_mem _ (List.get_mem gens i hi), ?_⟩
      show ¬(((gens.get ⟨i, hi⟩).yields n).isSome = true)
      rw [hdead]
      simp
    have hfd : (List.range (n + 1)).find?
        (fun m => !(aliveAt (gens.map PyGen.yields) m)) = some n := by
      apply find?_range_least _ _ _ (Nat.le_refl n)
      · simp [hdeadn]
      · intro m hm
        simp [hprev m hm]
    have hfg : gens.find? (fun g => (((g.yields n).isNone : Bool))) =
        some (gens.get ⟨i, hi⟩) := by
      apply find?_get_of_first gens _ i hi
      · show ((gens.get ⟨i, hi⟩).yields n).isNone = true
        rw [hdead]
        rfl
      · intro j hj hji
        have := hfirst j hj hji
        show ((gens.get ⟨j, hj⟩).yields n).isNone = false
        cases hy : (gens.get ⟨j, hj⟩).yields n with
        | none => rw [hy] at this; simp at this
        | some v => rfl
    rw [hfd]
    show CCOut.stop ((gens.find? (fun g => (((g.yields n).isNone : Bool)))).map
      PyGen.retval) = _
    rw [hfg]
    rfl

/-- Two concrete generators for the C7 witness: the first yields `"a"`,
`"b"` and then returns 7; the second yields `"x"` forever (return value
9, never reached). -/
def witGen1 : PyGen Nat :=
  { yields := fun n => if n < 2 then some ['a'] else none, retval := 7 }

def witGen2 : PyGen Nat :=
  { yields := fun _ => some ['x'], retval := 9 }

/-- C7 (witness): on step 1 both generators yield, producing `"b,x"`; on
step 2 the first generator is exhausted, and `concatechain` stops with
its return value 7. -/
theorem claim7_concatechain_witness :
    concatechainRun [witGen1, witGen2] [','] 1 =
      .yieldv (joinSep [','] ([witGen1, witGen2].map (fun g => (g.yields 1).getD []))) ∧
    concatechainRun [witGen1, witGen2] [','] 2 = .stop (some 7) :=
  ⟨(claim7_concatechain [witGen1, witGen2] [','] 1).1 (by decide),
   (claim7_concatechain [witGen1, witGen2] [','] 2).2 0 (by decide)
     (by decide) (fun j hj hj0 => absurd hj0 (Nat.not_lt_zero j)) rfl⟩

/-- A stateful Python iterator: the yield sequence of the underlying
generator together with the cursor of how far it has been pulled. -/
structure GenSt where
  seq : GenSeq
  pos : Nat

/-- One `__next__()` call on an iterator. -/
def GenSt.next (g : GenSt) : Option Str × GenSt :=
  (g.seq g.pos, { g with pos := g.pos + 1 })

/-- `k` discarded `__next__()` calls (the advance loop in
`multi_line_frame_generator`). -/
def GenSt.advance (g : GenSt) : Nat → GenSt
  | 0 => g
  | k + 1 => GenSt.advance g.next.2 k

/-- The row-building loop of `decorator.multi_line_frame_generator`:
`for i in range(height): append a fresh invocation of frame_function;
advance it i * offset frames`. -/
def buildRows (ff : GenSeq) (offset : Nat) : Nat → List GenSt
  | 0 => []
  | i + 1 => buildRows ff offset i ++ [GenSt.advance ⟨ff, 0⟩ (i * offset)]

/-- The first value `concatechain(*frame_generators, separator='\n')`
yields: one frame pulled from each row iterator, joined with the
separator (or exhaustion if some row yields nothing). -/
def ccFirst (gens : List GenSt) (sep : Str) : Option Str :=
  let pulls := gens.map (fun g => g.next.1)
  if pulls.all Option.isSome then
    some (joinSep sep (pulls.map (fun o => o.getD [])))
  else none

/-- The scenario row function of C8: single-character decimal frames
`"0", "1", "2", …` (cycling through the ten digits). -/
def rowFn : GenSeq := fun n => some [Char.ofNat (48 + n % 10)]

theorem advance_pos (ff : GenSeq) (p k : Nat) :
    GenSt.advance ⟨ff, p⟩ k = ⟨ff, p + k⟩ := by
  induction k generalizing p with
  | zero => rfl
  | succ k ih =>
    show GenSt.advance ⟨ff, p + 1⟩ k = _
    rw [ih (p + 1)]
    simp [Nat.add_comm, Nat.add_assoc, Nat.add_left_comm]

theorem buildRows_length (ff : GenSeq) (offset h : Nat) :
    (buildRows ff offset h).length = h := by
  induction h with
  | zero => rfl
  | succ h ih => simp [buildRows, ih]

/-- C8: `multi_line_frame_generator` advances row `i` by `i * offset`
frames before use — the iterator stored for row `i` is a fresh invocation
of the frame function positioned at frame `i * offset` — and with
`height = 3`, `offset = 2` over a row function producing frames
`"0", "1", "2", …`, the rows start at frames 0, 2 and 4, so the first
joint frame is `"0\n2\n4"`. -/
theorem claim8_multi_line (ff : GenSeq) (offset height i : Nat) (hi : i < height) :
    (buildRows ff offset height).get? i = some ⟨ff, i * offset⟩ ∧
    ccFirst (buildRows rowFn 2 3) ['\n'] = some ['0', '\n', '2', '\n', '4'] := by
  constructor
  · induction height with
    | zero => exact absurd hi (Nat.not_lt_zero i)
    | succ h ih =>
      rcases Nat.lt_or_ge i h with hlt | hge
      · rw [buildRows, List.get?_append]
        · exact ih hlt
        · rw [buildRows_length]; exact hlt
      · have hieq : i = h := Nat.le_antisymm (Nat.lt_succ_iff.mp hi) hge
        subst hieq
        rw [buildRows, List.get?_append_right (by rw [buildRows_length])]
        rw [buildRows_length, Nat.sub_self]
        rw [advance_pos]
        simp
  · decide

/-- C8 (witness): the general staggering statement at row 2 of the
scenario (`height = 3`, `offset = 2`): the stored iterator is the row
function positioned at frame 4, and the first joint frame is
`"0\n2\n4"`. -/
theorem claim8_multi_line_witness :
    (buildRows rowFn 2 3).get? 2 = some ⟨rowFn, 2 * 2⟩ ∧
    ccFirst (buildRows rowFn 2 3) ['\n'] = some ['0', '\n', '2', '\n', '4'] :=
  claim8_multi_line rowFn 2 3 2 (by decide)

/-- Program counter of the background render-loop thread
(`cli.animate_cli`): not yet started; the `time.sleep(step)` of a tick;
the pull-write-flush of a tick; the `event.is_set()` check; the
erase-frame write after the loop breaks; the `animation_.reset()` call;
finished. -/
inductive LoopPC where
  | notStarted | sleepPhase | drawPhase | checkPhase | erasePhase | resetPhase | stopped
deriving DecidableEq, Repr

/-- Program counter of the foreground thread running
`util._sync_supervisor`: about to `pool.submit(animate_cli, …)`; running
`func(*args, **kwargs)`; the `event.set()` performed by
`_terminating_event`'s `finally` on context exit; the join performed by
`ThreadPoolExecutor.__exit__` (`shutdown(wait=True)`); returned (or
re-raised) to the caller. -/
inductive MainPC where
  | submitPhase | workPhase | setEventPhase | joinPhase | returned
deriving DecidableEq, Repr

/-- Joint state of `_sync_supervisor` and `animate_cli`: the shared
`multiprocessing.Event`, both program counters, the shared animation
engine, everything written to stdout (in order), the recorded outcome of
the work function, and how many frames have been drawn. -/
structure Sys (ρ : Type) where
  event : Bool
  loopPC : LoopPC
  mainPC : MainPC
  anim : Animation
  out : List Str
  result : Option (Except PyErr ρ)
  drawCount : Nat

/-- Interleaving small-step semantics of `_sync_supervisor` running a
work function with outcome `wk` concurrently with `animate_cli`.  Either
thread may step at any time; the join step of `ThreadPoolExecutor.__exit__`
is enabled only once the worker has finished (`shutdown(wait=True)`). -/
inductive Step (wk : Except PyErr ρ) : Sys ρ → Sys ρ → Prop where
  | submit (s : Sys ρ) (h1 : s.mainPC = .submitPhase) (h2 : s.loopPC = .notStarted) :
      Step wk s { s with mainPC := .workPhase, loopPC := .sleepPhase }
  | work (s : Sys ρ) (h : s.mainPC = .workPhase) :
      Step wk s { s with mainPC := .setEventPhase, result := some wk }
  | setEvent (s : Sys ρ) (h : s.mainPC = .setEventPhase) :
      Step wk s { s with mainPC := .joinPhase, event := true }
  | join (s : Sys ρ) (h : s.mainPC = .joinPhase) (hl : s.loopPC = .stopped) :
      Step wk s { s with mainPC := .returned }
  | loopSleep (s : Sys ρ) (h : s.loopPC = .sleepPhase) :
      Step wk s { s with loopPC := .drawPhase }
  | loopDraw (s : Sys ρ) (f : Str) (a' : Animation) (h : s.loopPC = .drawPhase)
      (hn : s.anim.next = some (f, a')) :
      Step wk s { s with loopPC := .checkPhase, anim := a',
                         out := s.out ++ [f], drawCount := s.drawCount + 1 }
  | loopCheckTrue (s : Sys ρ) (h : s.loopPC = .checkPhase) (he : s.event = true) :
      Step wk s { s with loopPC := .erasePhase }
  | loopCheckFalse (s : Sys ρ) (h : s.loopPC = .checkPhase) (he : s.event = false) :
      Step wk s { s with loopPC := .sleepPhase }
  | loopErase (s : Sys ρ) (h : s.loopPC = .erasePhase) :
      Step wk s { s with loopPC := .resetPhase,
                         out := s.out ++ [s.anim.get_erase_frame] }
  | loopReset (s : Sys ρ) (h : s.loopPC = .resetPhase) :
      Step wk s { s with loopPC := .stopped, anim := s.anim.reset }

/-- The state at entry of `_sync_supervisor`: nothing submitted, event
clear, nothing written, work not yet run. -/
def initSys (a0 : Animation) : Sys ρ :=
  { event := false
    loopPC := .notStarted
    mainPC := .submitPhase
    anim := a0
    out := []
    result := none
    drawCount := 0 }

/-- All states a supervised run can pass through. -/
def Reach (wk : Except PyErr ρ) (a0 : Animation) (s : Sys ρ) : Prop :=
  Relation.ReflTransGen (Step wk) (initSys a0) s

/-- The inductive invariant of a supervised run. -/
def SysInv (wk : Except PyErr ρ) (s : Sys ρ) : Prop :=
  ((s.mainPC = .setEventPhase ∨ s.mainPC = .joinPhase ∨ s.mainPC = .returned) →
      s.result = some wk) ∧
  (s.mainPC = .joinPhase → s.event = true) ∧
  (s.mainPC = .returned → s.event = true ∧ s.loopPC = .stopped) ∧
  (s.loopPC = .resetPhase → s.out.getLast? = some s.anim.get_erase_frame) ∧
  (s.loopPC = .stopped →
      ∃ a' : Animation, s.anim = a'.reset ∧
        s.out.getLast? = some a'.get_erase_frame) ∧
  ((s.loopPC = .checkPhase ∨ s.loopPC = .erasePhase ∨
      s.loopPC = .resetPhase ∨ s.loopPC = .stopped) → 1 ≤ s.drawCount)

theorem sysInv_holds (wk : Except PyErr ρ) (a0 : Animation) (s : Sys ρ)
    (hr : Reach wk a0 s) : SysInv wk s := by
  induction hr with
  | refl =>
    refine ⟨fun h => ?_, fun h => ?_, fun h => ?_, fun h => ?_, fun h => ?_,
      fun h => ?_⟩ <;> simp [initSys] at h
  | @tail sp sc hr hstep ih =>
    obtain ⟨ih1, ih2, ih3, ih4, ih5, ih6⟩ := ih
    cases hstep with
    | submit h1 h2 =>
      refine ⟨fun hx => ?_, fun hx => ?_, fun hx => ?_, fun hx => ?_,
        fun hx => ?_, fun hx => ?_⟩ <;> simp at hx
    | work h =>
      refine ⟨fun _ => rfl, fun hx => ?_, fun hx => ?_, fun hx => ih4 hx,
        fun hx => ih5 hx, fun hx => ih6 hx⟩ <;> simp at hx
    | setEvent h =>
      refine ⟨fun _ => ih1 (Or.inl h), fun _ => rfl, fun hx => ?_,
        fun hx => ih4 hx, fun hx => ih5 hx, fun hx => ih6 hx⟩
      simp at hx
    | join h hl =>
      refine ⟨fun _ => ih1 (Or.inr (Or.inl h)), fun hx => ?_,
        fun _ => ⟨ih2 h, hl⟩, fun hx => ih4 hx, fun hx => ih5 hx,
        fun hx => ih6 hx⟩
      simp at hx
    | loopSleep h =>
      refine ⟨fun hx => ih1 hx, fun hx => ih2 hx, fun hx => ?_, fun hx => ?_,
        fun hx => ?_, fun hx => ?_⟩
      · have h2 := (ih3 hx).2
        rw [h] at h2
        simp at h2
      · simp at hx
      · simp at hx
      · simp at hx
    | loopDraw f a' h hn =>
      refine ⟨fun hx => ih1 hx, fun hx => ih2 hx, fun hx => ?_, fun hx => ?_,
        fun hx => ?_, fun _ => ?_⟩
      · have h2 := (ih3 hx).2
        rw [h] at h2
        simp at h2
      · simp at hx
      · simp at hx
      · exact Nat.succ_le_succ (Nat.zero_le _)
    | loopCheckTrue h he =>
      refine ⟨fun hx => ih1 hx, fun hx => ih2 hx, fun hx => ?_, fun hx => ?_,
        fun hx => ?_, fun _ => ih6 (Or.inl h)⟩
      · have h2 := (ih3 hx).2
        rw [h] at h2
        simp at h2
      · simp at hx
      · simp at hx
    | loopCheckFalse h he =>
      refine ⟨fun hx => ih1 hx, fun hx => ih2 hx, fun hx => ?_, fun hx => ?_,
        fun hx => ?_, fun hx => ?_⟩
      · have h2 := (ih3 hx).2
        rw [h] at h2
        simp at h2
      · simp at hx
      · simp at hx
      · simp at hx
    | loopErase h =>
      refine ⟨fun hx => ih1 hx, fun hx => ih2 hx, fun hx => ?_, fun _ => ?_,
        fun hx => ?_, fun _ => ih6 (Or.inr (Or.inl h))⟩
      · have h2 := (ih3 hx).2
        rw [h] at h2
        simp at h2
      · show (sp.out ++ [sp.anim.get_erase_frame]).getLast? =
          some sp.anim.get_erase_frame
        simp
      · simp at hx
    | loopReset h =>
      refine ⟨fun hx => ih1 hx, fun hx => ih2 hx, fun hx => ?_, fun hx => ?_,
        fun _ => ⟨sp.anim, rfl, ih4 h⟩, fun _ => ih6 (Or.inr (Or.inr (Or.inl h)))⟩
      · have h2 := (ih3 hx).2
        rw [h] at h2
        simp at h2
      · simp at hx

/-- C2: when the work function returns a value `v`, `_sync_supervisor`
returns exactly `v`, and by the time the main thread has returned the
render-loop worker is stopped, having written the erase frame of the
animation state it last drew with (as the final stdout write) and reset
the engine. -/
theorem claim2_sync_supervisor {ρ : Type} (v : ρ) (a0 : Animation) (s : Sys ρ)
    (hr : Reach (Except.ok v) a0 s) (hret : s.mainPC = .returned) :
    s.result = some (.ok v) ∧ s.loopPC = .stopped ∧
    ∃ a' : Animation, s.anim = a'.reset ∧
      s.out.getLast? = some a'.get_erase_frame := by
  obtain ⟨i1, _, i3, _, i5, _⟩ := sysInv_holds _ a0 s hr
  have hstop := (i3 hret).2
  exact ⟨i1 (Or.inr (Or.inr hret)), hstop, i5 hstop⟩

/-- C3: when the work function raises an error `e`, `_sync_supervisor`
re-raises exactly `e` (the recorded outcome), and at the time it returns
to its caller the stop event has been set and the render loop has
completed its cleanup: erase frame written last, engine reset, loop
stopped. -/
theorem claim3_error_propagation {ρ : Type} (e : PyErr) (a0 : Animation) (s : Sys ρ)
    (hr : Reach (ρ := ρ) (Except.error e) a0 s) (hret : s.mainPC = .returned) :
    s.result = some (.error e) ∧ s.event = true ∧ s.loopPC = .stopped ∧
    ∃ a' : Animation, s.anim = a'.reset ∧
      s.out.getLast? = some a'.get_erase_frame := by
  obtain ⟨i1, _, i3, _, i5, _⟩ := sysInv_holds _ a0 s hr
  have hstop := (i3 hret).2
  exact ⟨i1 (Or.inr (Or.inr hret)), (i3 hret).1, hstop, i5 hstop⟩

/-- C4: the render loop checks the stop event only after the write of a
tick, so in every reachable state in which the loop is at the stop check
or has exited the loop (erase, reset, stopped) at least one frame has
been drawn — regardless of when the event was set, even before the
loop's first step. -/
theorem claim4_draw_before_stop {ρ : Type} (wk : Except PyErr ρ)
    (a0 : Animation) (s : Sys ρ) (hr : Reach wk a0 s)
    (h : s.loopPC = .checkPhase ∨ s.loopPC = .erasePhase ∨
      s.loopPC = .resetPhase ∨ s.loopPC = .stopped) :
    1 ≤ s.drawCount :=
  (sysInv_holds wk a0 s hr).2.2.2.2.2 h

/-- A trivial single-line animation engine used by the trace witnesses:
every composed frame is `"z"` and the backup generator is empty. -/
def trivAnim : Animation :=
  { frame_function := fun _ => some ['z']
    current_generator := fun _ => some ['z']
    back_up_generator := fun _ => some []
    pos := 0
    current_frame := [] }

/-- `trivAnim` after one `__next__`. -/
def trivAnim1 : Animation := { trivAnim with current_frame := ['z'], pos := 1 }

/-- The final state of a complete supervised run over `trivAnim` whose
work function had outcome `r`. -/
def witFinalWith (r : Except PyErr Nat) : Sys Nat :=
  { event := true
    loopPC := .stopped
    mainPC := .returned
    anim := trivAnim1.reset
    out := [['z'], [' ', BACKSPACE]]
    result := some r
    drawCount := 1 }

/-- The full interleaving of one supervised run over `trivAnim`:
submit, run work, set event, then one loop tick that draws, observes the
event, erases, resets; finally the join and the return. -/
theorem reach_witFinalWith (r : Except PyErr Nat) :
    Reach r trivAnim (witFinalWith r) :=
  Relation.ReflTransGen.head (Step.submit _ rfl rfl)
    (Relation.ReflTransGen.head (Step.work _ rfl)
      (Relation.ReflTransGen.head (Step.setEvent _ rfl)
        (Relation.ReflTransGen.head (Step.loopSleep _ rfl)
          (Relation.ReflTransGen.head (Step.loopDraw _ ['z'] trivAnim1 rfl rfl)
            (Relation.ReflTransGen.head (Step.loopCheckTrue _ rfl rfl)
              (Relation.ReflTransGen.head (Step.loopErase _ rfl)
                (Relation.ReflTransGen.head (Step.loopReset _ rfl)
                  (Relation.ReflTransGen.head (Step.join _ rfl rfl)
                    Relation.ReflTransGen.refl))))))))

/-- C2 (witness): the completed concrete run with work outcome `42`. -/
theorem claim2_sync_supervisor_witness :
    (witFinalWith (.ok 42)).result = some (.ok 42) ∧
    (witFinalWith (.ok 42)).loopPC = .stopped ∧
    ∃ a' : Animation, (witFinalWith (.ok 42)).anim = a'.reset ∧
      (witFinalWith (.ok 42)).out.getLast? = some a'.get_erase_frame :=
  claim2_sync_supervisor 42 trivAnim (witFinalWith (.ok 42))
    (reach_witFinalWith (.ok 42)) rfl

/-- C3 (witness): the completed concrete run whose work function raised
a user error. -/
theorem claim3_error_propagation_witness :
    (witFinalWith (.error (.userError 3))).result = some (.error (.userError 3)) ∧
    (witFinalWith (.error (.userError 3))).event = true ∧
    (witFinalWith (.error (.userError 3))).loopPC = .stopped ∧
    ∃ a' : Animation, (witFinalWith (.error (.userError 3))).anim = a'.reset ∧
      (witFinalWith (.error (.userError 3))).out.getLast? =
        some a'.get_erase_frame :=
  claim3_error_propagation (.userError 3) trivAnim _
    (reach_witFinalWith (.error (.userError 3))) rfl

/-- The state of a run over `trivAnim` right after the first draw, at the
stop check. -/
def witMid : Sys Nat :=
  { event := false
    loopPC := .checkPhase
    mainPC := .workPhase
    anim := trivAnim1
    out := [['z']]
    result := none
    drawCount := 1 }

/-- C4 (witness): at the loop's first stop check of a concrete run, one
frame has already been drawn. -/
theorem claim4_draw_before_stop_witness : 1 ≤ witMid.drawCount :=
  claim4_draw_before_stop (ρ := Nat) (.ok 0) trivAnim witMid
    (Relation.ReflTransGen.head (Step.submit _ rfl rfl)
      (Relation.ReflTransGen.head (Step.loopSleep _ rfl)
        (Relation.ReflTransGen.head (Step.loopDraw _ ['z'] trivAnim1 rfl rfl)
          Relation.ReflTransGen.refl)))
    (Or.inl rfl)

/-- A Python callable as seen by the decoration machinery: all that
matters is whether the `_clanimtk_annotated` attribute is set (by
`Annotate`). -/
structure PyFunc where
  annotated : Bool
deriving DecidableEq, Repr

/-- The wrapper closure `_animate_no_kwargs` builds and returns at
decoration time (`functools.wraps` applied, no checks executed). -/
structure AnimWrapper where
  wrapped : PyFunc
deriving DecidableEq, Repr

/-- `_Animate.__init__`: raises `TypeError` via `_raise_if_annotated`
when the function carries the `_clanimtk_annotated` attribute. -/
def animate_init (func : PyFunc) : Except PyErr Unit :=
  if func.annotated then .error .typeError else .ok ()

/-- Applying the `animate` decorator to a callable
(`animate(func)` → `_animate_no_kwargs(func, animation, step)`): the
wrapper is built and returned immediately; `_Animate` is not constructed
and no annotation check runs at decoration time. -/
def animate_decorate (func : PyFunc) : Except PyErr AnimWrapper :=
  .ok ⟨func⟩

/-- Invoking the decorated function: the wrapper body constructs
`_Animate(func=func, animation=animation, step=step)` — which is where
`_raise_if_annotated` runs — and only then starts the supervised call
(whose execution is modelled separately by `Sys`/`Step`). -/
def wrapper_call (w : AnimWrapper) : Except PyErr Unit :=
  match animate_init w.wrapped with
  | .error e => .error e
  | .ok _ => .ok ()

/-- C9 (counterexample): applying `animate` to an `Annotate`-wrapped
function does not fail at decoration time — decoration returns the
wrapper successfully, and the `TypeError` only surfaces when the
decorated function is invoked. -/
theorem claim9_counterexample :
    animate_decorate ⟨true⟩ = .ok ⟨⟨true⟩⟩ ∧
    wrapper_call ⟨⟨true⟩⟩ = .error .typeError := by
  constructor
  · rfl
  · rfl

/-- C9 (amended): applying `animate` to an `Annotate`-wrapped function
succeeds at decoration time; the `TypeError` configuration error is
raised at the first invocation of the decorated function, when the
wrapper body constructs `_Animate`, before the wrapped function or the
supervisor runs. -/
theorem claim9_amended (func : PyFunc) (h : func.annotated = true) :
    animate_decorate func = .ok ⟨func⟩ ∧
    wrapper_call ⟨func⟩ = .error .typeError := by
  refine ⟨rfl, ?_⟩
  unfold wrapper_call animate_init
  rw [h]
  rfl

/-- C9 (witness): the amended statement at a concrete annotated
function. -/
theorem claim9_amended_witness :
    animate_decorate ⟨true⟩ = .ok ⟨⟨true⟩⟩ ∧
    wrapper_call ⟨⟨true⟩⟩ = .error .typeError :=
  claim9_amended ⟨true⟩ rfl

end Clanimtk
